import Mathlib

set_option maxRecDepth 8000

/- Shallow embedding of the Yelp-dataset sqlite ingestion pipeline
   (src/database.py and src/utils.py).

   Conventions of the embedding:
   - Python strings are Lean strings; python str operations (split, strip,
     replace, int()) are re-implemented below on character lists so that they
     reduce inside the kernel and follow python semantics exactly.
   - Python dicts appear as insertion-ordered association lists.
   - sqlite tables are lists of row structures, in rowid order; autoincrement
     rowids continue from the current row count (rows are never deleted).
   - A raised python exception (IntegrityError, KeyError, a sqlalchemy compile
     failure, ...) is Except.error, which aborts the file-level transactional
     scope, matching the rollback semantics of the source.
   - REAL columns carry rational numbers: the pipeline only moves these values
     verbatim from the JSON records to the rows, so no float arithmetic is
     ever performed. -/

/-- Python exceptions (and sqlalchemy errors) the embedded code can raise. -/
inductive PyError where
  | integrityError
  | unconsumedColumn
  | keyError
  | valueError
  | indexError
  | typeError
  | evalFailure
deriving DecidableEq, Repr

/-- The single-quote character, by code point. -/
def qch : Char := Char.ofNat 39

/-- Opening curly brace, by code point. -/
def lbch : Char := Char.ofNat 123

/-- Closing curly brace, by code point. -/
def rbch : Char := Char.ofNat 125

/-- A one-character string holding a single quote. -/
def squot : String := String.singleton qch

/-- Whitespace in the sense of python str.strip(). -/
def isWsChar (c : Char) : Bool :=
  c == ' ' || c == Char.ofNat 9 || c == Char.ofNat 10 || c == Char.ofNat 13

/-- Does the second list start with the first one? -/
def leadsWith : List Char → List Char → Bool
  | [], _ => true
  | _ :: _, [] => false
  | c :: cs, d :: ds => c == d && leadsWith cs ds

/-- Helper for python str.split; the fuel starts above the string length. -/
def pySplitAux (sep : List Char) : Nat → List Char → List Char → List (List Char)
  | 0, acc, s => [acc.reverse ++ s]
  | Nat.succ fuel, acc, s =>
    if leadsWith sep s then
      acc.reverse :: pySplitAux sep fuel [] (s.drop sep.length)
    else
      match s with
      | [] => [acc.reverse]
      | c :: cs => pySplitAux sep fuel (c :: acc) cs

/-- python str.split(sep) with a non-empty plain-text separator. -/
def pySplit (s sep : String) : List String :=
  (pySplitAux sep.data (s.data.length + 1) [] s.data).map String.mk

/-- Drop leading whitespace characters. -/
def dropLeadingWs : List Char → List Char
  | [] => []
  | c :: cs => if isWsChar c then dropLeadingWs cs else c :: cs

/-- python str.strip(): remove whitespace from both ends. -/
def pyStrip (s : String) : String :=
  String.mk ((dropLeadingWs (dropLeadingWs s.data.reverse).reverse))

/-- Helper for python re.sub with a plain-text pattern. -/
def pyReplaceAux (pat rep : List Char) : Nat → List Char → List Char
  | 0, s => s
  | Nat.succ fuel, s =>
    if leadsWith pat s then rep ++ pyReplaceAux pat rep fuel (s.drop pat.length)
    else
      match s with
      | [] => []
      | c :: cs => c :: pyReplaceAux pat rep fuel cs

/-- python re.sub(pat, rep, s) for a plain-text non-empty pattern: replace each
non-overlapping occurrence, scanning left to right. -/
def pyReplace (s pat rep : String) : String :=
  String.mk (pyReplaceAux pat.data rep.data (s.data.length + 1) s.data)

/-- Accumulate decimal digits; none on a non-digit character. -/
def digitsToNatAux : List Char → Nat → Option Nat
  | [], acc => some acc
  | c :: cs, acc =>
    if c.toNat ≥ 48 && c.toNat ≤ 57 then digitsToNatAux cs (acc * 10 + (c.toNat - 48))
    else none

/-- Decimal digit-string value; none when empty or on a non-digit. -/
def digitsToNat : List Char → Option Nat
  | [] => none
  | c :: cs => digitsToNatAux (c :: cs) 0

/-- python int(str): optional sign and decimal digits, outer whitespace
allowed; none models the ValueError python raises otherwise. -/
def pyIntOfString (s : String) : Option Int :=
  match (pyStrip s).data with
  | [] => none
  | c :: cs =>
    if c == '-' then (digitsToNat cs).map (fun n => -(n : Int))
    else if c == '+' then (digitsToNat cs).map (fun n => (n : Int))
    else (digitsToNat (c :: cs)).map (fun n => (n : Int))

/-- Python scalar values occurring in the embedded attribute strings. -/
inductive PyScalar where
  | intV (n : Int)
  | strV (s : String)
  | boolV (b : Bool)
  | noneV
deriving DecidableEq, Repr

/-- Result of evaluating one embedded attribute string: a scalar, or a
depth-one dict of scalars (the only shapes the dataset contains, per the
max-depth-2 contract of flatten_dict). -/
inductive PyVal where
  | scalar (v : PyScalar)
  | dictV (entries : List (String × PyScalar))
deriving DecidableEq, Repr

/-- Expressions the builtin eval is exercised with in flatten_dict: literal
displays plus the binary + operator.  A safe literal parser stops at the
literal fragment; eval additionally computes add nodes. -/
inductive PyExpr where
  | lit (v : PyScalar)
  | dictD (entries : List (String × PyScalar))
  | add (a b : PyExpr)
deriving DecidableEq, Repr

/-- Skip leading whitespace. -/
def skipWs : List Char → List Char
  | [] => []
  | c :: cs => if isWsChar c then skipWs cs else c :: cs

/-- Consume a single-quoted string body up to the closing quote. -/
def takeStrLit : List Char → Option (List Char × List Char)
  | [] => none
  | c :: cs =>
    if c == qch then some ([], cs)
    else (takeStrLit cs).map (fun p => (c :: p.1, p.2))

/-- Split off a run of leading decimal digits. -/
def spanDigits : List Char → (List Char × List Char)
  | [] => ([], [])
  | c :: cs =>
    if c.toNat ≥ 48 && c.toNat ≤ 57 then
      let p := spanDigits cs
      (c :: p.1, p.2)
    else ([], c :: cs)

/-- Parse an integer literal with an optional minus sign. -/
def parseIntLit : List Char → Option (PyScalar × List Char)
  | [] => none
  | c :: cs =>
    if c == '-' then
      match spanDigits cs with
      | ([], _) => none
      | (ds, rest) => (digitsToNat ds).map (fun n => (PyScalar.intV (-(n : Int)), rest))
    else
      match spanDigits (c :: cs) with
      | ([], _) => none
      | (ds, rest) => (digitsToNat ds).map (fun n => (PyScalar.intV (n : Int), rest))

/-- Parse one scalar literal: quoted string, True, False, None, or integer. -/
def parseScalar (s : List Char) : Option (PyScalar × List Char) :=
  match s with
  | [] => none
  | c :: cs =>
    if c == qch then (takeStrLit cs).map (fun p => (PyScalar.strV (String.mk p.1), p.2))
    else if leadsWith "True".data s then some (PyScalar.boolV true, s.drop 4)
    else if leadsWith "False".data s then some (PyScalar.boolV false, s.drop 5)
    else if leadsWith "None".data s then some (PyScalar.noneV, s.drop 4)
    else parseIntLit s

/-- Parse dict-display entries after the opening brace, including the closing
brace; keys are quoted strings, values scalar literals. -/
def parseDictEntries : Nat → List Char → Option (List (String × PyScalar) × List Char)
  | 0, _ => none
  | Nat.succ fuel, s =>
    match skipWs s with
    | [] => none
    | c :: cs =>
      if c == rbch then some ([], cs)
      else if c == qch then
        match takeStrLit cs with
        | none => none
        | some (k, rest1) =>
          match skipWs rest1 with
          | [] => none
          | d :: rest3 =>
            if d == ':' then
              match parseScalar (skipWs rest3) with
              | none => none
              | some (v, rest4) =>
                match skipWs rest4 with
                | [] => none
                | e :: rest6 =>
                  if e == ',' then
                    (parseDictEntries fuel rest6).map
                      (fun p => ((String.mk k, v) :: p.1, p.2))
                  else if e == rbch then some ([(String.mk k, v)], rest6)
                  else none
            else none
      else none

/-- Parse one term: a dict display or a scalar literal. -/
def parseTermD (s : List Char) : Option (PyExpr × List Char) :=
  match skipWs s with
  | [] => none
  | c :: cs =>
    if c == lbch then
      (parseDictEntries (cs.length + 1) cs).map (fun p => (PyExpr.dictD p.1, p.2))
    else (parseScalar (c :: cs)).map (fun p => (PyExpr.lit p.1, p.2))

/-- Left-associated chain of + operators after an initial term. -/
def parseAddChain : Nat → PyExpr → List Char → (PyExpr × List Char)
  | 0, acc, s => (acc, s)
  | Nat.succ fuel, acc, s =>
    match skipWs s with
    | [] => (acc, [])
    | c :: cs =>
      if c == '+' then
        match parseTermD cs with
        | some (t, rest) => parseAddChain fuel (PyExpr.add acc t) rest
        | none => (acc, c :: cs)
      else (acc, c :: cs)

/-- Parse a whole expression string; none models a SyntaxError from eval. -/
def parseExprFull (s : String) : Option PyExpr :=
  match parseTermD s.data with
  | none => none
  | some (t, rest) =>
    let p := parseAddChain (rest.length + 1) t rest
    if (skipWs p.2).isEmpty then some p.1 else none

/-- Python treats bools as ints under arithmetic. -/
def scalarAsInt : PyScalar → Option Int
  | PyScalar.intV n => some n
  | PyScalar.boolV b => some (if b then 1 else 0)
  | _ => none

/-- Evaluate an expression the way the builtin eval does: literals are values
and + is computed (int addition, bools as ints, string concatenation). -/
def evalPyExpr : PyExpr → Option PyVal
  | PyExpr.lit v => some (PyVal.scalar v)
  | PyExpr.dictD es => some (PyVal.dictV es)
  | PyExpr.add a b =>
    match evalPyExpr a, evalPyExpr b with
    | some (PyVal.scalar x), some (PyVal.scalar y) =>
      match scalarAsInt x, scalarAsInt y with
      | some m, some n => some (PyVal.scalar (PyScalar.intV (m + n)))
      | _, _ =>
        match x, y with
        | PyScalar.strV s1, PyScalar.strV s2 =>
          some (PyVal.scalar (PyScalar.strV (s1 ++ s2)))
        | _, _ => none
    | _, _ => none

/-- Behavior of the builtin eval on the fragment of python expression strings
relevant to the attribute data: parse, then compute.  In particular eval
reduces non-literal expressions such as additions to their computed result. -/
def pyEvalStr (s : String) : Option PyVal :=
  (parseExprFull s).bind evalPyExpr

/-- python str() on a scalar value. -/
def pyStrScalar : PyScalar → String
  | PyScalar.intV n => toString n
  | PyScalar.strV s => s
  | PyScalar.boolV b => if b then "True" else "False"
  | PyScalar.noneV => "None"

/-- python dict assignment d[k] = v on an insertion-ordered association list:
an existing key keeps its position and gets the new value, a new key is
appended. -/
def dinsert (l : List (String × String)) (k v : String) : List (String × String) :=
  if l.any (fun p => p.1 == k) then l.map (fun p => if p.1 == k then (k, v) else p)
  else l ++ [(k, v)]

/-- Iterated dict assignment. -/
def dinsertMany (acc : List (String × String)) (ps : List (String × String)) :
    List (String × String) :=
  ps.foldl (fun a p => dinsert a p.1 p.2) acc

/-- The flat entries one decoded value contributes in the flatten loop:
a nested dict yields one outerkey_innerkey entry per sub-key, anything else
one entry under the original key; values are stringified. -/
def flattenEntry (p : String × PyVal) : List (String × String) :=
  match p.2 with
  | PyVal.dictV es => es.map (fun q => (p.1 ++ "_" ++ q.1, pyStrScalar q.2))
  | PyVal.scalar v => [(p.1, pyStrScalar v)]

/-- The for-loop of utils.flatten_dict over the input dict entries,
accumulating the flattened dict: eval each value (an undecodable value
raises), then assign its flat entries one by one. -/
def flattenLoop : List (String × String) → List (String × String) →
    Except PyError (List (String × String))
  | acc, [] => Except.ok acc
  | acc, p :: ps =>
    match pyEvalStr p.2 with
    | none => Except.error PyError.evalFailure
    | some v => flattenLoop (dinsertMany acc (flattenEntry (p.1, v))) ps

/-- utils.flatten_dict: None passes through; otherwise each value string is
decoded with the builtin eval and the (up to depth 2) structure is flattened
into a dict of stringified values.  A value eval cannot process raises. -/
def flatten_dict (attribute_dict : Option (List (String × String))) :
    Except PyError (Option (List (String × String))) :=
  match attribute_dict with
  | none => Except.ok none
  | some d => (flattenLoop [] d).map some

/-- Decode every value of a dict; none if any value fails to decode. -/
def decodeAll : List (String × String) → Option (List (String × PyVal))
  | [] => some []
  | p :: ps =>
    match pyEvalStr p.2, decodeAll ps with
    | some v, some rest => some ((p.1, v) :: rest)
    | _, _ => none

/-- Concatenated flat entries of a decoded dict. -/
def flatOf : List (String × PyVal) → List (String × String)
  | [] => []
  | p :: ps => flattenEntry p ++ flatOf ps

/-- Specification-side description of flattening (spec section 4.2): decode
every value string, then emit each scalar as one entry under its key and each
nested mapping as one entry per leaf key named outerkey_innerkey, all values
stringified. -/
def flattenSpec (d : List (String × String)) : Option (List (String × String)) :=
  (decodeAll d).map flatOf

/-- Row of the business table. -/
structure BusinessRow where
  id : Nat
  business_id_str : Option String := none
  name : Option String := none
  address : Option String := none
  city : Option String := none
  state : Option String := none
  postal_code : Option String := none
  latitude : Option Rat := none
  longitude : Option Rat := none
  stars : Option Rat := none
  review_count : Option Int := none
  is_open : Option Int := none
deriving DecidableEq, Repr

/-- Row of the users table. -/
structure UserRow where
  id : Nat
  user_id_str : Option String := none
  name : Option String := none
  review_count : Option Int := none
  yelping_since : Option String := none
  useful : Option Int := none
  funny : Option Int := none
  cool : Option Int := none
  fans : Option Int := none
  friend_count : Option Int := none
  average_stars : Option Rat := none
  compliment_hot : Option Int := none
  compliment_more : Option Int := none
  compliment_profile : Option Int := none
  compliment_cute : Option Int := none
  compliment_list : Option Int := none
  compliment_note : Option Int := none
  compliment_plain : Option Int := none
  compliment_cool : Option Int := none
  compliment_funny : Option Int := none
  compliment_writer : Option Int := none
  compliment_photos : Option Int := none
deriving DecidableEq, Repr

/-- Row of the reviews table. -/
structure ReviewRow where
  id : Nat
  review_id_str : Option String := none
  user_id : Option Nat := none
  business_id : Option Nat := none
  stars : Option Int := none
  date : Option String := none
  text : Option String := none
  useful : Option Int := none
  funny : Option Int := none
  cool : Option Int := none
deriving DecidableEq, Repr

/-- Row of the tips table: its only constraint is the autoincrement primary
key; there is no natural-key column and no uniqueness constraint. -/
structure TipRow where
  id : Nat
  business_id : Option Nat := none
  user_id : Option Nat := none
  text : Option String := none
  date : Option String := none
  compliment_count : Option Int := none
deriving DecidableEq, Repr

/-- Row of the category or attributes table (same shape: id plus a unique
name column). -/
structure NameRow where
  id : Nat
  name : String
deriving DecidableEq, Repr

/-- Row of the hours table (unique on the (business_id, day_id) pair). -/
structure HoursRow where
  business_id : Nat
  day_id : Nat
  open_hours : String
deriving DecidableEq, Repr

/-- Row of the business_attributes junction table (unique on the
(attribute_id, business_id) pair). -/
structure BusAttrRow where
  attribute_id : Nat
  business_id : Nat
  value : String
deriving DecidableEq, Repr

/-- Row of the photos table. -/
structure PhotoRow where
  id : Nat
  photo_id_str : Option String := none
  business_id : Option Nat := none
  caption : Option String := none
  label : Option String := none
deriving DecidableEq, Repr

/-- The whole database: one list of rows per table, in rowid order.
The days and checkins tables are (id, day) and (business_id, date) pairs,
elite is (user_id, year), category_business and friends are id pairs. -/
structure DB where
  business : List BusinessRow := []
  days : List (Nat × String) := []
  hours : List HoursRow := []
  users : List UserRow := []
  elite : List (Nat × Int) := []
  reviews : List ReviewRow := []
  tips : List TipRow := []
  checkins : List (Nat × String) := []
  category : List NameRow := []
  category_business : List (Nat × Nat) := []
  friends : List (Nat × Nat) := []
  attributes : List NameRow := []
  business_attributes : List BusAttrRow := []
  photos : List PhotoRow := []
deriving DecidableEq, Repr

/-- A freshly created database: all tables empty. -/
def emptyDB : DB := {}

/-- One business record of the input stream (exact JSON field names). -/
structure BusinessRecord where
  business_id : String
  name : String := ""
  address : String := ""
  city : String := ""
  state : String := ""
  postal_code : String := ""
  latitude : Rat := 0
  longitude : Rat := 0
  stars : Rat := 0
  review_count : Int := 0
  is_open : Int := 0
  categories : Option String := none
  attributes : Option (List (String × String)) := none
  hours : Option (List (String × String)) := none
deriving DecidableEq, Repr

/-- One user record of the input stream. -/
structure UserRecord where
  user_id : String
  name : String := ""
  review_count : Int := 0
  yelping_since : String := ""
  useful : Int := 0
  funny : Int := 0
  cool : Int := 0
  fans : Int := 0
  average_stars : Rat := 0
  compliment_hot : Int := 0
  compliment_more : Int := 0
  compliment_profile : Int := 0
  compliment_cute : Int := 0
  compliment_list : Int := 0
  compliment_note : Int := 0
  compliment_plain : Int := 0
  compliment_cool : Int := 0
  compliment_funny : Int := 0
  compliment_writer : Int := 0
  compliment_photos : Int := 0
  elite : Option String := none
  friends : String := ""
deriving DecidableEq, Repr

/-- One review record of the input stream. -/
structure ReviewRecord where
  review_id : String
  user_id : String
  business_id : String
  stars : Int := 0
  date : String := ""
  text : String := ""
  useful : Int := 0
  funny : Int := 0
  cool : Int := 0
deriving DecidableEq, Repr

/-- One checkin record of the input stream. -/
structure CheckinRecord where
  business_id : String
  date : String := ""
deriving DecidableEq, Repr

/-- One tip record of the input stream. -/
structure TipRecord where
  business_id : String
  user_id : String
  text : String := ""
  date : String := ""
  compliment_count : Int := 0
deriving DecidableEq, Repr

/-- One photo record of the input stream. -/
structure PhotoRecord where
  photo_id : String
  business_id : String
  caption : String := ""
  label : String := ""
deriving DecidableEq, Repr

/-- Streamed per-record processing of one file inside one transactional scope:
an exception aborts (and thereby rolls back) the whole file. -/
def loadAll {ρ : Type} (step : DB → ρ → Except PyError DB) :
    DB → List ρ → Except PyError DB
  | db, [] => Except.ok db
  | db, r :: rs =>
    match step db r with
    | Except.ok db2 => loadAll step db2 rs
    | Except.error e => Except.error e

/-- The fixed day list seeded by database._initialize_days_table
(Monday=1 .. Sunday=7). -/
def sevenDays : List (Nat × String) :=
  [(1, "Monday"), (2, "Tuesday"), (3, "Wednesday"), (4, "Thursday"),
   (5, "Friday"), (6, "Saturday"), (7, "Sunday")]

/-- Conflict test for inserting one day row (primary-key id or unique day). -/
def dayBlocked (ds : List (Nat × String)) (p : Nat × String) : Bool :=
  ds.any (fun q => q.1 == p.1) || ds.any (fun q => q.2 == p.2)

/-- Insert one day row with on_conflict_do_nothing. -/
def seedStep (ds : List (Nat × String)) (p : Nat × String) : List (Nat × String) :=
  if dayBlocked ds p then ds else ds ++ [p]

/-- The multi-row days insert with on_conflict_do_nothing. -/
def seedDays (ds : List (Nat × String)) : List (Nat × String) :=
  sevenDays.foldl seedStep ds

/-- database._initialize_days_table: seed the days table idempotently; the
returned day: id dict is the constant sevenDays mapping (see day_id_dict). -/
def init_days_table (db : DB) : DB :=
  { db with days := seedDays db.days }

/-- The day: id dict _initialize_days_table returns (it is independent of the
database contents).  A missing day name is a python KeyError. -/
def day_id_dict (d : String) : Option Nat :=
  (sevenDays.find? (fun p => p.2 == d)).map (fun p => p.1)

/-- database._get_add_user_id: look the natural key up in the users table;
when present return the first matching rowid, otherwise insert a stub row
holding only user_id_str and return the new rowid. -/
def get_add_user_id (db : DB) (id_str : String) : Nat × DB :=
  match db.users.find? (fun r => r.user_id_str == some id_str) with
  | some r => (r.id, db)
  | none =>
    let uid := db.users.length + 1
    (uid, { db with users := db.users ++ [{ id := uid, user_id_str := some id_str }] })

/-- database._get_add_business_id.  The lookup matches the source; on a
missing key the source builds Insert(business_table).values(user_id_str=
id_str) — the business table has no user_id_str column, so executing that
statement makes sqlalchemy raise (unconsumed column name) instead of
inserting a stub row and returning its id. -/
def get_add_business_id (db : DB) (id_str : String) : Except PyError (Nat × DB) :=
  match db.business.find? (fun r => r.business_id_str == some id_str) with
  | some r => Except.ok (r.id, db)
  | none => Except.error PyError.unconsumedColumn

/-- Multi-row insert with on_conflict_do_nothing into a table whose
uniqueness constraint is on the name column (category, attributes); fresh
ids continue from the current row count. -/
def insertNamesOCDN (cur : List NameRow) (names : List String) : List NameRow :=
  names.foldl
    (fun acc n =>
      if acc.any (fun r => r.name == n) then acc
      else acc ++ [{ id := acc.length + 1, name := n }]) cur

/-- Multi-row insert into a junction table unique over both columns, with no
conflict clause: a duplicate raises IntegrityError (outside any handler). -/
def insertUniquePairs (cur : List (Nat × Nat)) (ps : List (Nat × Nat)) :
    Except PyError (List (Nat × Nat)) :=
  ps.foldlM
    (fun acc p =>
      if acc.contains p then Except.error PyError.integrityError
      else Except.ok (acc ++ [p])) cur

/-- Multi-row insert into business_attributes (unique (attribute_id,
business_id)), no conflict clause. -/
def insertBusAttrRows (cur : List BusAttrRow) (rows : List BusAttrRow) :
    Except PyError (List BusAttrRow) :=
  rows.foldlM
    (fun acc r =>
      if acc.any (fun q => q.attribute_id == r.attribute_id && q.business_id == r.business_id)
      then Except.error PyError.integrityError
      else Except.ok (acc ++ [r])) cur

/-- Multi-row insert into hours (unique (business_id, day_id)), no conflict
clause. -/
def insertHoursRows (cur : List HoursRow) (rows : List HoursRow) :
    Except PyError (List HoursRow) :=
  rows.foldlM
    (fun acc r =>
      if acc.any (fun q => q.business_id == r.business_id && q.day_id == r.day_id)
      then Except.error PyError.integrityError
      else Except.ok (acc ++ [r])) cur

/-- Insert with on_conflict_do_nothing into friends (unique
(user1_id, user2_id)). -/
def insertPairsOCDN (cur : List (Nat × Nat)) (ps : List (Nat × Nat)) :
    List (Nat × Nat) :=
  ps.foldl (fun acc p => if acc.contains p then acc else acc ++ [p]) cur

/-- python dict lookup on an association list; none is a KeyError. -/
def lookupAssoc (l : List (String × String)) (k : String) : Option String :=
  (l.find? (fun p => p.1 == k)).map (fun p => p.2)

/-- The business row the primary insert of _load_business_json writes. -/
def businessRowOf (i : Nat) (b : BusinessRecord) : BusinessRow :=
  { id := i
    business_id_str := some (pyStrip b.business_id)
    name := some (pyStrip b.name)
    address := some (pyStrip b.address)
    city := some (pyStrip b.city)
    state := some (pyStrip b.state)
    postal_code := some (pyStrip b.postal_code)
    latitude := some b.latitude
    longitude := some b.longitude
    stars := some b.stars
    review_count := some b.review_count
    is_open := some b.is_open }

/-- The user row the primary insert of _load_users_json writes; friend_count
is not part of the insert and stays NULL. -/
def userRowOf (i : Nat) (u : UserRecord) : UserRow :=
  { id := i
    user_id_str := some u.user_id
    name := some u.name
    review_count := some u.review_count
    yelping_since := some u.yelping_since
    useful := some u.useful
    funny := some u.funny
    cool := some u.cool
    fans := some u.fans
    friend_count := none
    average_stars := some u.average_stars
    compliment_hot := some u.compliment_hot
    compliment_more := some u.compliment_more
    compliment_profile := some u.compliment_profile
    compliment_cute := some u.compliment_cute
    compliment_list := some u.compliment_list
    compliment_note := some u.compliment_note
    compliment_plain := some u.compliment_plain
    compliment_cool := some u.compliment_cool
    compliment_funny := some u.compliment_funny
    compliment_writer := some u.compliment_writer
    compliment_photos := some u.compliment_photos }

/-- The category part of one business record: create missing category rows
(conflict-do-nothing on the unique name), then insert one junction row per
selected category id. -/
def catPart (db : DB) (bid : Nat) (b : BusinessRecord) : Except PyError DB :=
  match b.categories with
  | none => Except.ok db
  | some cs =>
    let business_categories := (pySplit cs ", ").map pyStrip
    let cat2 := insertNamesOCDN db.category (business_categories.map pyStrip)
    let category_ids := (cat2.filter (fun r => business_categories.contains r.name)).map (fun r => r.id)
    match insertUniquePairs db.category_business (category_ids.map (fun i => (i, bid))) with
    | Except.error e => Except.error e
    | Except.ok cb2 => Except.ok { db with category := cat2, category_business := cb2 }

/-- The attribute part of one business record: flatten, create missing
attribute rows by flattened key, then insert one junction row per selected
attribute carrying the (stripped) flattened value.  The value for a selected
name is looked up in the flattened dict, a python KeyError if absent. -/
def attrPart (db : DB) (bid : Nat) (b : BusinessRecord) : Except PyError DB :=
  match b.attributes with
  | none => Except.ok db
  | some ad =>
    match flatten_dict (some ad) with
    | Except.error e => Except.error e
    | Except.ok none => Except.error PyError.typeError
    | Except.ok (some flat) =>
      let at2 := insertNamesOCDN db.attributes (flat.map (fun p => pyStrip p.1))
      let entries := at2.filter (fun r => (flat.map (fun p => p.1)).contains r.name)
      match entries.mapM (fun e =>
          match lookupAssoc flat e.name with
          | some v => Except.ok (BusAttrRow.mk e.id bid (pyStrip v))
          | none => Except.error PyError.keyError) with
      | Except.error e => Except.error e
      | Except.ok rows =>
        match insertBusAttrRows db.business_attributes rows with
        | Except.error e => Except.error e
        | Except.ok ba2 => Except.ok { db with attributes := at2, business_attributes := ba2 }

/-- The hours part of one business record: one row per day whose hours string
is not the 0:0-0:0 sentinel, day resolved through the seeded day dict. -/
def hoursPart (db : DB) (bid : Nat) (b : BusinessRecord) : Except PyError DB :=
  match b.hours with
  | none => Except.ok db
  | some hs =>
    let days_dict := hs.filter (fun p => p.2 ≠ "0:0-0:0")
    match days_dict.mapM (fun p =>
        match day_id_dict p.1 with
        | some i => Except.ok (HoursRow.mk bid i p.2)
        | none => Except.error PyError.keyError) with
    | Except.error e => Except.error e
    | Except.ok rows =>
      match insertHoursRows db.hours rows with
      | Except.error e => Except.error e
      | Except.ok h2 => Except.ok { db with hours := h2 }

/-- One record of _load_business_json: primary insert (continue on a
duplicate natural key), then categories, attributes and hours. -/
def load_business_step (db : DB) (b : BusinessRecord) : Except PyError DB :=
  if db.business.any (fun r => r.business_id_str == some (pyStrip b.business_id)) then
    Except.ok db
  else
    let bid := db.business.length + 1
    let db1 := { db with business := db.business ++ [businessRowOf bid b] }
    match catPart db1 bid b with
    | Except.error e => Except.error e
    | Except.ok db2 =>
      match attrPart db2 bid b with
      | Except.error e => Except.error e
      | Except.ok db3 => hoursPart db3 bid b

/-- database._load_business_json: seed the days table, then stream the
records in one transactional scope. -/
def load_business_json (recs : List BusinessRecord) (db : DB) : Except PyError DB :=
  loadAll load_business_step (init_days_table db) recs

/-- The nested fix_split_elite of _load_users_json: rewrite the 20,20 artifact
to 2020, split on commas and parse each year as an int (none models the
ValueError int() raises on a malformed year). -/
def fix_split_elite (elite_str : String) : Option (List Int) :=
  let elite := pyReplace elite_str "20,20" "2020"
  (pySplit elite ",").mapM (fun year => pyIntOfString (pyStrip year))

/-- One record of _load_users_json: primary insert (continue on a duplicate
natural key), then the elite-year child rows. -/
def load_users_step (db : DB) (u : UserRecord) : Except PyError DB :=
  if db.users.any (fun r => r.user_id_str == some u.user_id) then
    Except.ok db
  else
    let uid := db.users.length + 1
    let db1 := { db with users := db.users ++ [userRowOf uid u] }
    match u.elite with
    | none => Except.ok db1
    | some es =>
      if es = "" then Except.ok db1
      else
        match fix_split_elite es with
        | none => Except.error PyError.valueError
        | some years =>
          if years.isEmpty then Except.ok db1
          else Except.ok { db1 with elite := db1.elite ++ years.map (fun y => (uid, y)) }

/-- database._load_users_json. -/
def load_users_json (recs : List UserRecord) (db : DB) : Except PyError DB :=
  loadAll load_users_step db recs

/-- One record of database._connect_users: look the user up (IndexError if
absent — this pass runs after the primary user load), split the friends field
on a comma-space, store the split length as friend_count, then insert one
friends row per listed key that matches an existing user row, with
on_conflict_do_nothing.  No stub users are created here. -/
def connect_users_step (db : DB) (u : UserRecord) : Except PyError DB :=
  match (db.users.filter (fun r => r.user_id_str == some u.user_id)).head? with
  | none => Except.error PyError.indexError
  | some u0 =>
    let friends_list := (pySplit u.friends ", ").map pyStrip
    let friend_count := friends_list.length
    let u2 := db.users.map (fun (r : UserRow) =>
        if r.id == u0.id then { r with friend_count := some (Int.ofNat friend_count) } else r)
    let db1 := { db with users := u2 }
    let friend_ids := (db1.users.filter (fun (r : UserRow) =>
        friends_list.any (fun k => r.user_id_str == some k))).map (fun r => r.id)
    if friend_ids.isEmpty then Except.ok db1
    else
      let fr2 := insertPairsOCDN db1.friends (friend_ids.map (fun f => (u0.id, f)))
      Except.ok { db1 with friends := fr2 }

/-- database._connect_users: the second pass over the user stream. -/
def connect_users (recs : List UserRecord) (db : DB) : Except PyError DB :=
  loadAll connect_users_step db recs

/-- The review row _load_review_json writes. -/
def reviewRowOf (i : Nat) (uid bid : Nat) (r : ReviewRecord) : ReviewRow :=
  { id := i
    review_id_str := some r.review_id
    user_id := some uid
    business_id := some bid
    stars := some r.stars
    date := some r.date
    text := some r.text
    useful := some r.useful
    funny := some r.funny
    cool := some r.cool }

/-- One record of _load_review_json: resolve user and business through the
key resolvers, then insert with on_conflict_do_nothing (the unique
review_id_str makes a duplicate a no-op). -/
def load_review_step (db : DB) (r : ReviewRecord) : Except PyError DB :=
  let p := get_add_user_id db r.user_id
  match get_add_business_id p.2 r.business_id with
  | Except.error e => Except.error e
  | Except.ok q =>
    let db2 := q.2
    if db2.reviews.any (fun rr => rr.review_id_str == some r.review_id) then Except.ok db2
    else
      let rv2 := db2.reviews ++ [reviewRowOf (db2.reviews.length + 1) p.1 q.1 r]
      Except.ok { db2 with reviews := rv2 }

/-- database._load_review_json. -/
def load_review_json (recs : List ReviewRecord) (db : DB) : Except PyError DB :=
  loadAll load_review_step db recs

/-- One record of _load_checkin_json: one row per comma-separated timestamp,
no dedup. -/
def load_checkin_step (db : DB) (c : CheckinRecord) : Except PyError DB :=
  let checkin_dates := (pySplit c.date ",").map pyStrip
  match get_add_business_id db c.business_id with
  | Except.error e => Except.error e
  | Except.ok q =>
    Except.ok { q.2 with checkins := q.2.checkins ++ checkin_dates.map (fun d => (q.1, d)) }

/-- database._load_checkin_json. -/
def load_checkin_json (recs : List CheckinRecord) (db : DB) : Except PyError DB :=
  loadAll load_checkin_step db recs

/-- The tip row _load_tip_json writes. -/
def tipRowOf (i : Nat) (bid uid : Nat) (t : TipRecord) : TipRow :=
  { id := i
    business_id := some bid
    user_id := some uid
    text := some t.text
    date := some t.date
    compliment_count := some t.compliment_count }

/-- One record of _load_tip_json: resolve user and business, then insert.
The statement carries on_conflict_do_nothing, but the tips table has no
uniqueness constraint besides the autoincrement primary key, so every pass
over a tip record appends a fresh row. -/
def load_tip_step (db : DB) (t : TipRecord) : Except PyError DB :=
  let p := get_add_user_id db t.user_id
  match get_add_business_id p.2 t.business_id with
  | Except.error e => Except.error e
  | Except.ok q =>
    Except.ok { q.2 with tips := q.2.tips ++ [tipRowOf (q.2.tips.length + 1) q.1 p.1 t] }

/-- database._load_tip_json. -/
def load_tip_json (recs : List TipRecord) (db : DB) : Except PyError DB :=
  loadAll load_tip_step db recs

/-- The photo row _load_photos_json writes. -/
def photoRowOf (i : Nat) (bid : Nat) (p : PhotoRecord) : PhotoRow :=
  { id := i
    photo_id_str := some p.photo_id
    business_id := some bid
    caption := some p.caption
    label := some p.label }

/-- One record of _load_photos_json: resolve the business, then insert with
on_conflict_do_nothing (unique photo_id_str). -/
def load_photos_step (db : DB) (p : PhotoRecord) : Except PyError DB :=
  match get_add_business_id db p.business_id with
  | Except.error e => Except.error e
  | Except.ok q =>
    let db2 := q.2
    if db2.photos.any (fun r => r.photo_id_str == some p.photo_id) then Except.ok db2
    else
      let ph2 := db2.photos ++ [photoRowOf (db2.photos.length + 1) q.1 p]
      Except.ok { db2 with photos := ph2 }

/-- database._load_photos_json. -/
def load_photos_json (recs : List PhotoRecord) (db : DB) : Except PyError DB :=
  loadAll load_photos_step db recs

/-- The discovered input files, one optional record stream per entity kind
(the source matches filename substrings inside the configured directory;
presence of a stream models presence of the file). -/
structure RawFiles where
  business : Option (List BusinessRecord) := none
  user : Option (List UserRecord) := none
  review : Option (List ReviewRecord) := none
  checkin : Option (List CheckinRecord) := none
  tip : Option (List TipRecord) := none
  photo : Option (List PhotoRecord) := none

/-- database.create_full_database: table creation writes no rows; when any of
the business, user or review files is missing the function reports the
failure and returns -1 before running any loader; otherwise the loaders run
in the fixed order, the optional kinds only when present (photos also only
when include_photos). On success the function returns python None. -/
def create_full_database (files : RawFiles) (include_photos : Bool) (db : DB) :
    Except PyError (Option Int × DB) :=
  match files.business, files.user, files.review with
  | some bf, some uf, some rf =>
    match load_business_json bf db with
    | Except.error e => Except.error e
    | Except.ok db1 =>
      match load_users_json uf db1 with
      | Except.error e => Except.error e
      | Except.ok db2 =>
        match connect_users uf db2 with
        | Except.error e => Except.error e
        | Except.ok db3 =>
          match load_review_json rf db3 with
          | Except.error e => Except.error e
          | Except.ok db4 =>
            match (match files.checkin with
                   | some cf => load_checkin_json cf db4
                   | none => Except.ok db4) with
            | Except.error e => Except.error e
            | Except.ok db5 =>
              match (match files.tip with
                     | some tf => load_tip_json tf db5
                     | none => Except.ok db5) with
              | Except.error e => Except.error e
              | Except.ok db6 =>
                match (match files.photo with
                       | some pf => if include_photos then load_photos_json pf db6 else Except.ok db6
                       | none => Except.ok db6) with
                | Except.error e => Except.error e
                | Except.ok db7 => Except.ok (none, db7)
  | _, _, _ => Except.ok (some (-1), db)

/- Concrete fixtures used by the closed instantiations below. -/

/-- The attribute value string of the flatten test: a one-entry dict display
written with explicit quote characters. -/
def exDictStr : String :=
  "\x7b" ++ squot ++ "x" ++ squot ++ ": " ++ squot ++ "y" ++ squot ++ "\x7d"

/-- The flatten test input dict. -/
def exampleAttrs : List (String × String) := [("a", "1"), ("b", exDictStr)]

/-- A database already holding one business (key b) and one user (key u). -/
def tipDb0 : DB := { emptyDB with
  business := [{ id := 1, business_id_str := some "b" }],
  users := [{ id := 1, user_id_str := some "u" }] }

/-- One tip record referencing the existing business and user. -/
def tip1 : TipRecord :=
  { business_id := "b", user_id := "u", text := "t", date := "d", compliment_count := 0 }

/-- A review record whose business natural key is absent everywhere. -/
def revB1 : ReviewRecord := { review_id := "r1", user_id := "u1", business_id := "b1" }

/-- A minimal business record (no categories, attributes or hours). -/
def bwRec : BusinessRecord := { business_id := "bw1" }

/-- A minimal user record (no elite years). -/
def uwRec : UserRecord := { user_id := "uw1" }

/-- A review record referencing the existing business b and a new user. -/
def rwRec : ReviewRecord := { review_id := "rw1", user_id := "uw2", business_id := "b" }

/-- A photo record referencing the existing business b. -/
def pwRec : PhotoRecord := { photo_id := "pw1", business_id := "b" }

/-- The database after loading the one-record business file into emptyDB. -/
def bwDb1 : DB := { emptyDB with
  business := [businessRowOf 1 bwRec], days := seedDays [] }

/-- The database after loading the one-record user file into emptyDB. -/
def uwDb1 : DB := { emptyDB with users := [userRowOf 1 uwRec] }

/-- The database after loading the one-record review file into tipDb0:
a stub user row for the unseen user key, plus the review row. -/
def rwDb1 : DB := { tipDb0 with
  users := tipDb0.users ++ [{ id := 2, user_id_str := some "uw2" }],
  reviews := [reviewRowOf 1 2 1 rwRec] }

/-- The database after loading the one-record photo file into tipDb0. -/
def pwDb1 : DB := { tipDb0 with photos := [photoRowOf 1 1 pwRec] }

/-- A business record repeating the already-present key b. -/
def b8Rec : BusinessRecord := { business_id := "b" }

/-- A user record repeating the already-present key u. -/
def u8Rec : UserRecord := { user_id := "u" }

/-- A user record carrying the 2020 elite artifact. -/
def u9Rec : UserRecord := { user_id := "u9", elite := some "2019,20,20" }

/-- A database with two users for the friend-link instantiations. -/
def fdb : DB := { emptyDB with
  users := [{ id := 1, user_id_str := some "u1" }, { id := 2, user_id_str := some "u2" }] }

/-- A user listing three friend keys of which only u2 resolves. -/
def fRec : UserRecord := { user_id := "u1", friends := "u2, zz, ww" }

/-- The row of user u1 in fdb. -/
def fRow : UserRow := { id := 1, user_id_str := some "u1" }

/-- A user whose friends field is the empty string. -/
def f0Rec : UserRecord := { user_id := "u1", friends := "" }

/- Generic lemmas about streaming a file through loadAll. -/

/-- An invariant preserved by every successful step is preserved by a whole
successful file load. -/
theorem loadAll_inv {ρ : Type} (step : DB → ρ → Except PyError DB) (Q : DB → Prop)
    (hstep : ∀ db r db2, Q db → step db r = Except.ok db2 → Q db2) :
    ∀ (l : List ρ) (db db2 : DB), loadAll step db l = Except.ok db2 → Q db → Q db2 := by
  intro l
  induction l with
  | nil =>
    intro db db2 h hq
    simp only [loadAll, Except.ok.injEq] at h
    subst h
    exact hq
  | cons a rs ih =>
    intro db db2 h hq
    cases hs : step db a with
    | error e =>
      simp only [loadAll, hs] at h
      exact Except.noConfusion h
    | ok dbm =>
      simp only [loadAll, hs] at h
      exact ih dbm db2 h (hstep db a dbm hq hs)

/-- After a successful file load, every record of the file satisfies its
per-record postcondition in the final state, provided successful steps
establish it for their own record and preserve it for others. -/
theorem loadAll_post {ρ : Type} (step : DB → ρ → Except PyError DB) (P : DB → ρ → Prop)
    (hpost : ∀ db r db2, step db r = Except.ok db2 → P db2 r)
    (hpres : ∀ db r r2 db2, P db r → step db r2 = Except.ok db2 → P db2 r) :
    ∀ (l : List ρ) (db db2 : DB), loadAll step db l = Except.ok db2 → ∀ r ∈ l, P db2 r := by
  intro l
  induction l with
  | nil =>
    intro db db2 h r hr
    simp at hr
  | cons a rs ih =>
    intro db db2 h r hr
    cases hs : step db a with
    | error e =>
      simp only [loadAll, hs] at h
      exact Except.noConfusion h
    | ok dbm =>
      simp only [loadAll, hs] at h
      rcases List.mem_cons.mp hr with rfl | hr2
      · exact loadAll_inv step (fun d => P d r)
          (fun db x db2 hq hx => hpres db r x db2 hq hx) rs dbm db2 h (hpost db r dbm hs)
      · exact ih dbm db2 h r hr2

/-- A file all of whose records are already no-ops loads without changing
the database. -/
theorem loadAll_skip {ρ : Type} (step : DB → ρ → Except PyError DB) (P : DB → ρ → Prop)
    (hskip : ∀ db r, P db r → step db r = Except.ok db) :
    ∀ (l : List ρ) (db : DB), (∀ r ∈ l, P db r) → loadAll step db l = Except.ok db := by
  intro l
  induction l with
  | nil => intro db _; rfl
  | cons a rs ih =>
    intro db hall
    have hs : step db a = Except.ok db := hskip db a (hall a (List.mem_cons_self a rs))
    simp only [loadAll, hs]
    exact ih db (fun r hr => hall r (List.mem_cons_of_mem a hr))

/-- C1. The claim says the Key Resolver, asked for a business natural key not
yet present (as happens when a Review, Tip, Checkin or Photo references it),
inserts exactly one stub Business row holding only business_id_str and
returns the new surrogate id.  The code instead builds the insert with the
user_id_str column, which the business table does not have, so the statement
raises and no row is ever inserted: here both the resolver itself and a
review load hitting it abort with the unconsumed-column error. -/
theorem stub_business_insert_bug :
    get_add_business_id emptyDB "b1" = Except.error PyError.unconsumedColumn ∧
    load_review_json [revB1] emptyDB = Except.error PyError.unconsumedColumn :=
  ⟨rfl, rfl⟩

/-- C3. The claim says the Attribute Flattener decodes value strings with a
parser accepting only literal syntax, never evaluating arbitrary expressions,
so a non-literal value string such as 1+1 is not reduced to its computed
result.  The code calls the builtin eval, which does compute it: flattening
a dict carrying the value string 1+1 stores the string 2. -/
theorem eval_reduces_expressions :
    pyEvalStr "1+1" = some (PyVal.scalar (PyScalar.intV 2)) ∧
    flatten_dict (some [("a", "1+1")]) = Except.ok (some [("a", "2")]) :=
  ⟨rfl, rfl⟩

/-- C4. The claim says both Key Resolvers, called twice on the same fresh
natural key, return the same surrogate id and insert exactly one row.  That
holds for the user resolver (shown on a fresh key: first call inserts the
one stub row and returns id 1, the second call finds it and returns the same
id without inserting), but the business resolver cannot insert at all: on a
fresh key it raises the unconsumed-column error instead. -/
theorem resolver_second_call_bug :
    (get_add_user_id emptyDB "u1").1 = 1 ∧
    (get_add_user_id emptyDB "u1").2.users.length = 1 ∧
    get_add_user_id (get_add_user_id emptyDB "u1").2 "u1" =
      (1, (get_add_user_id emptyDB "u1").2) ∧
    get_add_business_id emptyDB "b2" = Except.error PyError.unconsumedColumn :=
  ⟨rfl, rfl, rfl, rfl⟩

/-- C2, counterexample.  The claim says loading the same file twice leaves
the same row count for every one of the five kinds, in particular for tips.
The tips table has no natural key and no uniqueness constraint, so the
conflict-do-nothing clause never fires: loading a one-tip file once gives
one row, loading it twice gives two. -/
theorem tip_reload_doubles_rows :
    (load_tip_json [tip1] tipDb0).map (fun d => d.tips.length) = Except.ok 1 ∧
    ((load_tip_json [tip1] tipDb0).bind (fun d => load_tip_json [tip1] d)).map
      (fun d => d.tips.length) = Except.ok 2 :=
  ⟨rfl, rfl⟩

/-- C7. When the business, user or review file is absent, create_full_database
reports failure with -1 before running any loader: the database comes back
unchanged (no rows written in any table) and the optional checkin, tip and
photo loaders are not run either. -/
theorem missing_mandatory_aborts (files : RawFiles) (ip : Bool) (db : DB)
    (h : files.business = none ∨ files.user = none ∨ files.review = none) :
    create_full_database files ip db = Except.ok (some (-1), db) := by
  obtain ⟨fb, fu, fr, fc, ft, fp⟩ := files
  simp only at h
  rcases h with h | h | h
  · subst h; cases fu <;> cases fr <;> rfl
  · subst h; cases fb <;> cases fr <;> rfl
  · subst h; cases fb <;> cases fu <;> rfl

/-- C7, witness: a directory holding only a business file aborts with -1 and
leaves the database untouched. -/
theorem missing_mandatory_aborts_witness :
    create_full_database { business := some [] } true tipDb0 =
      Except.ok (some (-1), tipDb0) :=
  missing_mandatory_aborts { business := some [] } true tipDb0 (Or.inr (Or.inl rfl))

/-- C8. A business or user record whose primary insert hits the duplicate
natural key is skipped whole: the database is unchanged (no category,
attribute, hours or elite child rows), nothing is updated on the existing
row, and the stream continues with the remaining records. -/
theorem duplicate_key_skip (db : DB) (b : BusinessRecord) (u : UserRecord)
    (brest : List BusinessRecord) (urest : List UserRecord)
    (hb : db.business.any (fun r => r.business_id_str == some (pyStrip b.business_id)) = true)
    (hu : db.users.any (fun r => r.user_id_str == some u.user_id) = true) :
    load_business_step db b = Except.ok db ∧
    load_users_step db u = Except.ok db ∧
    loadAll load_business_step db (b :: brest) = loadAll load_business_step db brest ∧
    loadAll load_users_step db (u :: urest) = loadAll load_users_step db urest := by
  have h1 : load_business_step db b = Except.ok db := by
    simp [load_business_step, hb]
  have h2 : load_users_step db u = Except.ok db := by
    simp [load_users_step, hu]
  exact ⟨h1, h2, by simp only [loadAll, h1], by simp only [loadAll, h2]⟩

/-- C8, witness: records repeating the keys already in tipDb0 are skipped and
the load continues. -/
theorem duplicate_key_skip_witness :
    load_business_step tipDb0 b8Rec = Except.ok tipDb0 ∧
    load_users_step tipDb0 u8Rec = Except.ok tipDb0 ∧
    loadAll load_business_step tipDb0 [b8Rec] = loadAll load_business_step tipDb0 [] ∧
    loadAll load_users_step tipDb0 [u8Rec] = loadAll load_users_step tipDb0 [] :=
  duplicate_key_skip tipDb0 b8Rec u8Rec [] [] rfl rfl

/-- C9. Loading a fresh user whose elite field is 2019,20,20 first rewrites
the 20,20 artifact to 2020 and then splits on commas, so exactly the
elite-year rows 2019 and 2020 are inserted (not 20 and 20). -/
theorem elite_twenty_twenty_fix (db : DB) (u : UserRecord)
    (hfresh : db.users.any (fun r => r.user_id_str == some u.user_id) = false)
    (helite : u.elite = some "2019,20,20") :
    fix_split_elite "2019,20,20" = some [2019, 2020] ∧
    load_users_step db u = Except.ok { db with
      users := db.users ++ [userRowOf (db.users.length + 1) u],
      elite := db.elite ++ [(db.users.length + 1, 2019), (db.users.length + 1, 2020)] } := by
  refine ⟨rfl, ?_⟩
  unfold load_users_step
  rw [helite]
  simp only [hfresh, Bool.false_eq_true, if_false]
  rw [show fix_split_elite "2019,20,20" = some [2019, 2020] from rfl]
  rfl

/-- C9, witness: the artifact record loaded into the empty database yields
the elite rows (1, 2019) and (1, 2020). -/
theorem elite_twenty_twenty_fix_witness :
    fix_split_elite "2019,20,20" = some [2019, 2020] ∧
    load_users_step emptyDB u9Rec = Except.ok { emptyDB with
      users := [userRowOf 1 u9Rec], elite := [(1, 2019), (1, 2020)] } :=
  elite_twenty_twenty_fix emptyDB u9Rec rfl rfl

/- Helper lemmas about the friend-link pass. -/

/-- Filtering a mapped list is mapping the correspondingly filtered list. -/
theorem filter_of_map {α β : Type} (l : List α) (f : α → β) (p : β → Bool) :
    (l.map f).filter p = (l.filter (fun x => p (f x))).map f := by
  induction l with
  | nil => rfl
  | cons a t ih =>
    by_cases h : p (f a) = true
    · simp [List.filter_cons, h, ih]
    · simp [List.filter_cons, h, ih]

/-- Mapping a key-preserving row update does not change the key column. -/
theorem map_key_of_map (l : List UserRow) (f : UserRow → UserRow)
    (hk : ∀ r, (f r).user_id_str = r.user_id_str) :
    (l.map f).map (fun r => r.user_id_str) = l.map (fun r => r.user_id_str) := by
  rw [List.map_map]
  exact List.map_congr_left (fun a _ => hk a)

/-- After the friend-count update, every row carrying the updated id holds
the new count. -/
theorem mem_upd_friend_count (l : List UserRow) (uid : Nat) (n : Int) :
    ∀ r ∈ l.map (fun (x : UserRow) =>
      if x.id == uid then { x with friend_count := some n } else x),
      r.id = uid → r.friend_count = some n := by
  intro r hr hid
  obtain ⟨x, hx, rfl⟩ := List.mem_map.mp hr
  by_cases h : (x.id == uid) = true
  · simp [h]
  · rw [if_neg h] at hid ⊢
    exact absurd (by simp [hid]) h

/-- Length of a filter by a disjunction of mutually exclusive predicates. -/
theorem length_filter_or {α : Type} (l : List α) (p q : α → Bool)
    (h : ∀ x ∈ l, ¬(p x = true ∧ q x = true)) :
    (l.filter (fun x => p x || q x)).length = (l.filter p).length + (l.filter q).length := by
  induction l with
  | nil => rfl
  | cons a t ih =>
    have ht := ih (fun x hx => h x (List.mem_cons_of_mem a hx))
    have ha := h a (List.mem_cons_self a t)
    cases hp : p a <;> cases hq : q a
    · simp [List.filter_cons, hp, hq, ht]
    · simp [List.filter_cons, hp, hq, ht]
      omega
    · simp [List.filter_cons, hp, hq, ht]
      omega
    · exact absurd ⟨hp, hq⟩ ha

/-- In a table whose key column is unique, the rows matching one key number
one when the key occurs and zero otherwise. -/
theorem count_unique_key (l : List UserRow) (k : String)
    (hk : (l.filterMap (fun r => r.user_id_str)).Nodup) :
    (l.filter (fun r => r.user_id_str == some k)).length =
      if l.any (fun r => r.user_id_str == some k) then 1 else 0 := by
  induction l with
  | nil => rfl
  | cons a t ih =>
    cases ha : a.user_id_str with
    | none =>
      have ht : (t.filterMap (fun r => r.user_id_str)).Nodup := by
        simpa [List.filterMap_cons, ha] using hk
      have hf : (a.user_id_str == some k) = false := by rw [ha]; rfl
      simp [List.filter_cons, List.any_cons, hf, ih ht]
    | some s =>
      have hk2 : s ∉ t.filterMap (fun r => r.user_id_str) ∧
          (t.filterMap (fun r => r.user_id_str)).Nodup := by
        have := hk
        rw [List.filterMap_cons, ha] at this
        exact List.nodup_cons.mp this
      by_cases hs : s = k
      · subst hs
        have hnone : ∀ r ∈ t, ¬(r.user_id_str == some s) = true := by
          intro r hr hcon
          have he : r.user_id_str = some s := by simpa using hcon
          exact hk2.1 (List.mem_filterMap.mpr ⟨r, hr, he⟩)
        have hfil : t.filter (fun r => r.user_id_str == some s) = [] :=
          List.filter_eq_nil_iff.mpr hnone
        have hany : t.any (fun r => r.user_id_str == some s) = false :=
          List.any_eq_false.mpr hnone
        have htrue : (a.user_id_str == some s) = true := by rw [ha]; simp
        simp [List.filter_cons, List.any_cons, htrue, hfil, hany]
      · have hf : (a.user_id_str == some k) = false := by
          rw [ha]; simp [hs]
        simp [List.filter_cons, List.any_cons, hf, ih hk2.2]

/-- With distinct listed keys and a unique key column, the users matching
some listed key and the listed keys matching some user number the same. -/
theorem count_match_eq (fl : List String) (l : List UserRow)
    (hfl : fl.Nodup) (hk : (l.filterMap (fun r => r.user_id_str)).Nodup) :
    (l.filter (fun r => fl.any (fun k => r.user_id_str == some k))).length =
      (fl.filter (fun k => l.any (fun r => r.user_id_str == some k))).length := by
  induction fl with
  | nil => simp
  | cons k fl' ih =>
    have hknotin : k ∉ fl' := (List.nodup_cons.mp hfl).1
    have hfl' : fl'.Nodup := (List.nodup_cons.mp hfl).2
    have hcongr : l.filter (fun r => (k :: fl').any (fun k2 => r.user_id_str == some k2)) =
        l.filter (fun r => (r.user_id_str == some k) ||
          fl'.any (fun k2 => r.user_id_str == some k2)) := by
      apply List.filter_congr
      intro r _
      simp [List.any_cons]
    have hdisj : ∀ r ∈ l, ¬((r.user_id_str == some k) = true ∧
        (fl'.any (fun k2 => r.user_id_str == some k2)) = true) := by
      rintro r _ ⟨h1, h2⟩
      have e1 : r.user_id_str = some k := by simpa using h1
      obtain ⟨k2, hk2, hbeq⟩ := List.any_eq_true.mp h2
      have e2 : r.user_id_str = some k2 := by simpa using hbeq
      rw [e1] at e2
      obtain rfl : k = k2 := by simpa using e2
      exact hknotin hk2
    rw [hcongr, length_filter_or l _ _ hdisj, count_unique_key l k hk, ih hfl']
    by_cases hany : l.any (fun r => r.user_id_str == some k) = true
    · simp only [List.filter_cons, hany, if_true, List.length_cons]
      omega
    · have hany2 : l.any (fun r => r.user_id_str == some k) = false := by
        cases hv : l.any (fun r => r.user_id_str == some k)
        · rfl
        · exact absurd hv hany
      simp [List.filter_cons, hany2]

/-- Inserting pairwise-distinct pairs none of which is already present, with
conflict-do-nothing, appends them all. -/
theorem insertPairsOCDN_fresh (ps : List (Nat × Nat)) : ∀ (cur : List (Nat × Nat)),
    ps.Nodup → (∀ p ∈ ps, p ∉ cur) → insertPairsOCDN cur ps = cur ++ ps := by
  induction ps with
  | nil => intro cur _ _; simp [insertPairsOCDN]
  | cons p t ih =>
    intro cur hnd hfresh
    have hmem : p ∉ cur := hfresh p (List.mem_cons_self p t)
    have hnd2 := (List.nodup_cons.mp hnd).2
    have hpnotin := (List.nodup_cons.mp hnd).1
    have step1 : insertPairsOCDN cur (p :: t) = insertPairsOCDN (cur ++ [p]) t := by
      simp [insertPairsOCDN, hmem]
    have hfresh2 : ∀ q ∈ t, q ∉ cur ++ [p] := by
      intro q hq hqmem
      rcases List.mem_append.mp hqmem with hc | hp1
      · exact hfresh q (List.mem_cons_of_mem p hq) hc
      · have he : q = p := by simpa using hp1
        subst he
        exact hpnotin hq
    rw [step1, ih (cur ++ [p]) hnd2 hfresh2]
    simp

/-- Evaluation of one friend-link step once the user's row has been found:
the count update always happens, the pair insert only when some listed key
resolves. -/
theorem connect_step_eval (db : DB) (u : UserRecord) (u0 : UserRow)
    (hfind : (db.users.filter (fun r => r.user_id_str == some u.user_id)).head? = some u0) :
    connect_users_step db u =
      if (((db.users.map (fun (r : UserRow) =>
            if r.id == u0.id then
              { r with friend_count :=
                           some (Int.ofNat ((pySplit u.friends ", ").map pyStrip).length) }
            else r)).filter (fun (r : UserRow) =>
            ((pySplit u.friends ", ").map pyStrip).any
              (fun k => r.user_id_str == some k))).map (fun r => r.id)).isEmpty
      then Except.ok { db with users := (db.users.map (fun (r : UserRow) =>
            if r.id == u0.id then
              { r with friend_count :=
                           some (Int.ofNat ((pySplit u.friends ", ").map pyStrip).length) }
            else r)) }
      else Except.ok { db with
        users := (db.users.map (fun (r : UserRow) =>
            if r.id == u0.id then
              { r with friend_count :=
                           some (Int.ofNat ((pySplit u.friends ", ").map pyStrip).length) }
            else r)),
        friends := (insertPairsOCDN db.friends
          ((((db.users.map (fun (r : UserRow) =>
              if r.id == u0.id then
                { r with friend_count :=
                             some (Int.ofNat ((pySplit u.friends ", ").map pyStrip).length) }
              else r)).filter (fun (r : UserRow) =>
              ((pySplit u.friends ", ").map pyStrip).any
                (fun k => r.user_id_str == some k))).map (fun r => r.id)).map
            (fun f => (u0.id, f)))) } := by
  unfold connect_users_step
  rw [hfind]

/-- C10. A user record whose friends field is the empty string gets
friend_count 1 (python splits the empty string into a one-element list
holding the empty string), and no friends rows are inserted for it, there
being no user whose key is the empty string. -/
theorem empty_friends_count_one (db : DB) (u : UserRecord) (u0 : UserRow)
    (hfind : (db.users.filter (fun r => r.user_id_str == some u.user_id)).head? = some u0)
    (hf : u.friends = "")
    (hne : ∀ r ∈ db.users, ¬ r.user_id_str = some "") :
    ∃ db2, connect_users_step db u = Except.ok db2 ∧
      db2.friends = db.friends ∧
      (∀ r ∈ db2.users, r.id = u0.id → r.friend_count = some 1) ∧
      db2.users.map (fun r => r.user_id_str) = db.users.map (fun r => r.user_id_str) := by
  rw [connect_step_eval db u u0 hfind, hf]
  rw [show (pySplit "" ", ").map pyStrip = [""] from rfl]
  have hkeyupd : ∀ r : UserRow, ((if r.id == u0.id then
      { r with friend_count := some (Int.ofNat ([""] : List String).length) }
      else r) : UserRow).user_id_str = r.user_id_str := by
    intro r
    by_cases h : (r.id == u0.id) = true
    · simp [h]
    · simp [h]
  have hemp : ((db.users.map (fun (r : UserRow) =>
      if r.id == u0.id then
        { r with friend_count := some (Int.ofNat ([""] : List String).length) }
      else r)).filter (fun (r : UserRow) =>
      ([""] : List String).any (fun k => r.user_id_str == some k))) = [] := by
    rw [filter_of_map]
    have h0 : db.users.filter (fun (x : UserRow) =>
        ([""] : List String).any (fun k => ((if x.id == u0.id then
          { x with friend_count := some (Int.ofNat ([""] : List String).length) }
          else x) : UserRow).user_id_str == some k)) = [] := by
      apply List.filter_eq_nil_iff.mpr
      intro x hx
      simp only [List.any_cons, List.any_nil, Bool.or_false, hkeyupd x]
      simpa using hne x hx
    rw [h0]
    rfl
  rw [hemp]
  simp only [List.map_nil, List.isEmpty_nil, if_true]
  refine ⟨_, rfl, rfl, ?_, ?_⟩
  · exact mem_upd_friend_count db.users u0.id (Int.ofNat ([""] : List String).length)
  · exact map_key_of_map db.users _ hkeyupd

/-- C10, witness: the user with empty friends field in the two-user database
gets friend_count 1 and no friends rows. -/
theorem empty_friends_count_one_witness :
    ∃ db2, connect_users_step fdb f0Rec = Except.ok db2 ∧
      db2.friends = fdb.friends ∧
      (∀ r ∈ db2.users, r.id = fRow.id → r.friend_count = some 1) ∧
      db2.users.map (fun r => r.user_id_str) = fdb.users.map (fun r => r.user_id_str) :=
  empty_friends_count_one fdb f0Rec fRow rfl rfl (by decide)

/-- C6. For a user record processed by the friend-link pass, friend_count
becomes the number of listed friend keys (the length of the comma-space
split), independent of resolution; exactly one friends row is inserted per
listed key that matches an existing user row; and no stub users are created
(the user table keeps its keys and its length). -/
theorem friend_link_counts (db : DB) (u : UserRecord) (u0 : UserRow)
    (hfind : (db.users.filter (fun r => r.user_id_str == some u.user_id)).head? = some u0)
    (hids : (db.users.map (fun r => r.id)).Nodup)
    (hkeys : (db.users.filterMap (fun r => r.user_id_str)).Nodup)
    (hfl : ((pySplit u.friends ", ").map pyStrip).Nodup)
    (hfresh : ∀ q ∈ db.friends, q.1 ≠ u0.id) :
    ∃ db2, connect_users_step db u = Except.ok db2 ∧
      (∀ r ∈ db2.users, r.id = u0.id →
        r.friend_count = some (Int.ofNat ((pySplit u.friends ", ").map pyStrip).length)) ∧
      db2.users.map (fun r => r.user_id_str) = db.users.map (fun r => r.user_id_str) ∧
      db2.users.length = db.users.length ∧
      db2.friends.length = db.friends.length +
        (((pySplit u.friends ", ").map pyStrip).filter
          (fun k => db.users.any (fun r => r.user_id_str == some k))).length := by
  rw [connect_step_eval db u u0 hfind]
  have hkeyupd : ∀ r : UserRow, ((if r.id == u0.id then
      { r with friend_count :=
                   some (Int.ofNat ((pySplit u.friends ", ").map pyStrip).length) }
      else r) : UserRow).user_id_str = r.user_id_str := by
    intro r
    by_cases h : (r.id == u0.id) = true
    · simp [h]
    · simp [h]
  have hidupd : ∀ r : UserRow, ((if r.id == u0.id then
      { r with friend_count :=
                   some (Int.ofNat ((pySplit u.friends ", ").map pyStrip).length) }
      else r) : UserRow).id = r.id := by
    intro r
    by_cases h : (r.id == u0.id) = true
    · simp [h]
    · simp [h]
  have hfid : ((db.users.map (fun (r : UserRow) =>
        if r.id == u0.id then
          { r with friend_count :=
                       some (Int.ofNat ((pySplit u.friends ", ").map pyStrip).length) }
        else r)).filter (fun (r : UserRow) =>
        ((pySplit u.friends ", ").map pyStrip).any
          (fun k => r.user_id_str == some k))).map (fun r => r.id)
      = (db.users.filter (fun (r : UserRow) =>
        ((pySplit u.friends ", ").map pyStrip).any
          (fun k => r.user_id_str == some k))).map (fun r => r.id) := by
    rw [filter_of_map]
    have h1 : db.users.filter (fun (x : UserRow) =>
        ((pySplit u.friends ", ").map pyStrip).any
          (fun k => ((if x.id == u0.id then
            { x with friend_count :=
                         some (Int.ofNat ((pySplit u.friends ", ").map pyStrip).length) }
            else x) : UserRow).user_id_str == some k)) =
        db.users.filter (fun (x : UserRow) =>
        ((pySplit u.friends ", ").map pyStrip).any
          (fun k => x.user_id_str == some k)) := by
      apply List.filter_congr
      intro x _
      rw [hkeyupd x]
    rw [h1, List.map_map]
    exact List.map_congr_left (fun a _ => hidupd a)
  rw [hfid]
  have husers_keys : (db.users.map (fun (r : UserRow) =>
      if r.id == u0.id then
        { r with friend_count :=
                     some (Int.ofNat ((pySplit u.friends ", ").map pyStrip).length) }
      else r)).map (fun r => r.user_id_str) = db.users.map (fun r => r.user_id_str) :=
    map_key_of_map db.users _ hkeyupd
  have hcount := count_match_eq ((pySplit u.friends ", ").map pyStrip) db.users hfl hkeys
  by_cases hisE : ((db.users.filter (fun (r : UserRow) =>
      ((pySplit u.friends ", ").map pyStrip).any
        (fun k => r.user_id_str == some k))).map (fun r => r.id)).isEmpty = true
  · rw [if_pos hisE]
    refine ⟨_, rfl, ?_, husers_keys, ?_, ?_⟩
    · exact mem_upd_friend_count db.users u0.id _
    · simp
    · have hnil : db.users.filter (fun (r : UserRow) =>
          ((pySplit u.friends ", ").map pyStrip).any
            (fun k => r.user_id_str == some k)) = [] :=
        List.map_eq_nil_iff.mp (List.isEmpty_iff.mp hisE)
      rw [hnil] at hcount
      simp only [List.length_nil] at hcount
      simp only [← hcount, Nat.add_zero]
  · rw [if_neg hisE]
    have hfsub : ((db.users.filter (fun (r : UserRow) =>
        ((pySplit u.friends ", ").map pyStrip).any
          (fun k => r.user_id_str == some k))).map (fun r => r.id)).Nodup :=
      hids.sublist ((List.filter_sublist db.users).map (fun r => r.id))
    have hinj : Function.Injective (fun f : Nat => (u0.id, f)) := by
      intro a b h
      simpa using h
    have hpairsnd : (((db.users.filter (fun (r : UserRow) =>
        ((pySplit u.friends ", ").map pyStrip).any
          (fun k => r.user_id_str == some k))).map (fun r => r.id)).map
          (fun f => (u0.id, f))).Nodup :=
      hfsub.map hinj
    have hpairsfresh : ∀ p ∈ (((db.users.filter (fun (r : UserRow) =>
        ((pySplit u.friends ", ").map pyStrip).any
          (fun k => r.user_id_str == some k))).map (fun r => r.id)).map
          (fun f => (u0.id, f))), p ∉ db.friends := by
      intro p hp hmem
      obtain ⟨f, _, rfl⟩ := List.mem_map.mp hp
      exact hfresh (u0.id, f) hmem rfl
    have hins := insertPairsOCDN_fresh _ db.friends hpairsnd hpairsfresh
    rw [hins]
    refine ⟨_, rfl, ?_, husers_keys, ?_, ?_⟩
    · exact mem_upd_friend_count db.users u0.id _
    · simp
    · simp only [List.length_append, List.length_map]
      rw [hcount]

/-- C6, witness: a user listing three friend keys of which one resolves gets
friend_count 3 and exactly one friends row. -/
theorem friend_link_counts_witness :
    ∃ db2, connect_users_step fdb fRec = Except.ok db2 ∧
      (∀ r ∈ db2.users, r.id = 1 → r.friend_count = some 3) ∧
      db2.users.map (fun r => r.user_id_str) = fdb.users.map (fun r => r.user_id_str) ∧
      db2.users.length = fdb.users.length ∧
      db2.friends.length = fdb.friends.length + 1 :=
  friend_link_counts fdb fRec fRow rfl (by decide) (by decide) (by decide)
    (fun q hq => absurd hq (List.not_mem_nil q))

/- Helper lemmas about the flatten loop. -/

/-- Assigning a fresh key appends the entry. -/
theorem dinsert_fresh (l : List (String × String)) (k v : String)
    (h : ∀ a ∈ l, ¬ a.1 = k) : dinsert l k v = l ++ [(k, v)] := by
  unfold dinsert
  have hany : l.any (fun p => p.1 == k) = false :=
    List.any_eq_false.mpr (fun a ha => by simpa using h a ha)
  simp [hany]

/-- Assigning a run of pairwise-fresh keys appends the entries in order. -/
theorem dinsertMany_fresh (ps : List (String × String)) : ∀ (acc : List (String × String)),
    (ps.map Prod.fst).Nodup → (∀ p ∈ ps, ∀ a ∈ acc, ¬ a.1 = p.1) →
    dinsertMany acc ps = acc ++ ps := by
  induction ps with
  | nil => intro acc _ _; simp [dinsertMany]
  | cons p t ih =>
    intro acc hnd hfresh
    have h1 : dinsert acc p.1 p.2 = acc ++ [p] :=
      dinsert_fresh acc p.1 p.2 (fun a ha => hfresh p (List.mem_cons_self p t) a ha)
    have hnd2 : (t.map Prod.fst).Nodup := by
      simp only [List.map_cons] at hnd
      exact (List.nodup_cons.mp hnd).2
    have hnotin : p.1 ∉ t.map Prod.fst := by
      simp only [List.map_cons] at hnd
      exact (List.nodup_cons.mp hnd).1
    have hfresh2 : ∀ q ∈ t, ∀ a ∈ acc ++ [p], ¬ a.1 = q.1 := by
      intro q hq a ha
      rcases List.mem_append.mp ha with hmem | hmem
      · exact hfresh q (List.mem_cons_of_mem p hq) a hmem
      · have he : a = p := by simpa using hmem
        subst he
        intro heq
        exact hnotin (heq ▸ List.mem_map_of_mem Prod.fst hq)
    have hstep : dinsertMany acc (p :: t) = dinsertMany (acc ++ [p]) t := by
      simp only [dinsertMany, List.foldl_cons, h1]
    rw [hstep, ih (acc ++ [p]) hnd2 hfresh2]
    simp

/-- The flatten loop run over entries that all decode, when the flattened
keys collide nowhere, appends the concatenated flat entries. -/
theorem flattenLoop_spec (d : List (String × String)) :
    ∀ (acc : List (String × String)) (decoded : List (String × PyVal)),
    decodeAll d = some decoded →
    ((acc ++ flatOf decoded).map Prod.fst).Nodup →
    flattenLoop acc d = Except.ok (acc ++ flatOf decoded) := by
  induction d with
  | nil =>
    intro acc decoded h hnd
    simp only [decodeAll, Option.some.injEq] at h
    subst h
    simp [flattenLoop, flatOf]
  | cons p t ih =>
    intro acc decoded h hnd
    cases hev : pyEvalStr p.2 with
    | none =>
      rw [decodeAll, hev] at h
      exact Option.noConfusion h
    | some v =>
      cases hrest : decodeAll t with
      | none =>
        rw [decodeAll, hev, hrest] at h
        exact Option.noConfusion h
      | some rest =>
        rw [decodeAll, hev, hrest] at h
        injection h with h
        subst h
        have hflat : flatOf ((p.1, v) :: rest) = flattenEntry (p.1, v) ++ flatOf rest := rfl
        rw [hflat] at hnd ⊢
        have hnd' : ((acc ++ flattenEntry (p.1, v) ++ flatOf rest).map Prod.fst).Nodup := by
          rw [List.append_assoc]
          exact hnd
        have hkeysplit : ((acc.map Prod.fst) ++
            ((flattenEntry (p.1, v) ++ flatOf rest).map Prod.fst)).Nodup := by
          rw [← List.map_append]
          exact hnd
        have hdisj := (List.nodup_append.mp hkeysplit).2.2
        have hfe_nd : ((flattenEntry (p.1, v)).map Prod.fst).Nodup := by
          have h2 := (List.nodup_append.mp hkeysplit).2.1
          rw [List.map_append] at h2
          exact (List.nodup_append.mp h2).1
        have hfe_fresh : ∀ q ∈ flattenEntry (p.1, v), ∀ a ∈ acc, ¬ a.1 = q.1 := by
          intro q hq a ha hea
          apply hdisj (List.mem_map_of_mem Prod.fst ha)
          rw [List.map_append]
          exact List.mem_append.mpr (Or.inl (hea ▸ List.mem_map_of_mem Prod.fst hq))
        have hins : dinsertMany acc (flattenEntry (p.1, v)) = acc ++ flattenEntry (p.1, v) :=
          dinsertMany_fresh (flattenEntry (p.1, v)) acc hfe_nd hfe_fresh
        have hstep : flattenLoop acc (p :: t) =
            flattenLoop (dinsertMany acc (flattenEntry (p.1, v))) t := by
          simp only [flattenLoop, hev]
        rw [hstep, hins, ih (acc ++ flattenEntry (p.1, v)) rest hrest hnd']
        rw [List.append_assoc]

/-- C5. flatten_dict maps None to None; any input dict whose value strings
all decode and whose flattened keys collide nowhere is mapped to the flat
dict described by the spec-side flattenSpec (stringified decoded values,
nested keys rendered outerkey_innerkey); in particular the dict holding a
under 1 and b under a one-entry nested dict flattens to a: 1, b_x: y. -/
theorem flatten_dict_correct (d fs : List (String × String))
    (h : flattenSpec d = some fs) (hn : (fs.map Prod.fst).Nodup) :
    flatten_dict none = Except.ok none ∧
    flatten_dict (some d) = Except.ok (some fs) ∧
    flatten_dict (some exampleAttrs) = Except.ok (some [("a", "1"), ("b_x", "y")]) := by
  refine ⟨rfl, ?_, rfl⟩
  unfold flattenSpec at h
  cases hdec : decodeAll d with
  | none =>
    rw [hdec] at h
    exact Option.noConfusion h
  | some decoded =>
    rw [hdec] at h
    simp only [Option.map_some'] at h
    injection h with h
    subst h
    have hnd : (([] ++ flatOf decoded).map Prod.fst).Nodup := by simpa using hn
    show Except.map some (flattenLoop [] d) = Except.ok (some (flatOf decoded))
    rw [flattenLoop_spec d [] decoded hdec hnd]
    rfl

/-- C5, witness: the example input evaluated through flatten_dict. -/
theorem flatten_dict_correct_witness :
    flatten_dict none = Except.ok none ∧
    flatten_dict (some exampleAttrs) = Except.ok (some [("a", "1"), ("b_x", "y")]) :=
  have h := flatten_dict_correct exampleAttrs [("a", "1"), ("b_x", "y")] rfl (by decide)
  ⟨h.1, h.2.1⟩

/- Helper lemmas for the reload (second pass) analysis. -/

/-- The category part of a business record does not touch the business or
days tables. -/
theorem catPart_facts (db : DB) (bid : Nat) (b : BusinessRecord) (db2 : DB)
    (h : catPart db bid b = Except.ok db2) :
    db2.business = db.business ∧ db2.days = db.days := by
  simp only [catPart] at h
  split at h
  · injection h with h
    subst h
    exact ⟨rfl, rfl⟩
  · split at h
    · exact Except.noConfusion h
    · injection h with h
      subst h
      exact ⟨rfl, rfl⟩

/-- The attribute part of a business record does not touch the business or
days tables. -/
theorem attrPart_facts (db : DB) (bid : Nat) (b : BusinessRecord) (db2 : DB)
    (h : attrPart db bid b = Except.ok db2) :
    db2.business = db.business ∧ db2.days = db.days := by
  simp only [attrPart] at h
  split at h
  · injection h with h
    subst h
    exact ⟨rfl, rfl⟩
  · split at h
    · exact Except.noConfusion h
    · exact Except.noConfusion h
    · split at h
      · exact Except.noConfusion h
      · split at h
        · exact Except.noConfusion h
        · injection h with h
          subst h
          exact ⟨rfl, rfl⟩

/-- The hours part of a business record does not touch the business or days
tables. -/
theorem hoursPart_facts (db : DB) (bid : Nat) (b : BusinessRecord) (db2 : DB)
    (h : hoursPart db bid b = Except.ok db2) :
    db2.business = db.business ∧ db2.days = db.days := by
  simp only [hoursPart] at h
  split at h
  · injection h with h
    subst h
    exact ⟨rfl, rfl⟩
  · split at h
    · exact Except.noConfusion h
    · split at h
      · exact Except.noConfusion h
      · injection h with h
        subst h
        exact ⟨rfl, rfl⟩

/-- A successful business step preserves the days table, makes its own
natural key present, and preserves key presence. -/
theorem business_step_facts (db : DB) (b : BusinessRecord) (db2 : DB)
    (h : load_business_step db b = Except.ok db2) :
    db2.days = db.days ∧
    db2.business.any (fun r => r.business_id_str == some (pyStrip b.business_id)) = true ∧
    (∀ p : BusinessRow → Bool, db.business.any p = true → db2.business.any p = true) := by
  simp only [load_business_step] at h
  split at h
  next hcond =>
    injection h with h
    subst h
    exact ⟨rfl, hcond, fun p hp => hp⟩
  next hcond =>
    split at h
    · exact Except.noConfusion h
    next dbc hc =>
      split at h
      · exact Except.noConfusion h
      next dba ha =>
        obtain ⟨hcb, hcd⟩ := catPart_facts _ _ _ _ hc
        obtain ⟨hab, had⟩ := attrPart_facts _ _ _ _ ha
        obtain ⟨hhb, hhd⟩ := hoursPart_facts _ _ _ _ h
        refine ⟨?_, ?_, ?_⟩
        · rw [hhd, had, hcd]
        · rw [hhb, hab, hcb]
          simp [businessRowOf]
        · intro p hp
          rw [hhb, hab, hcb]
          simp [List.any_append, hp]

/-- A successful user step either skipped its record or appended exactly the
record's full row. -/
theorem users_step_users (db : DB) (u : UserRecord) (db2 : DB)
    (h : load_users_step db u = Except.ok db2) :
    db2.users = db.users ∨ db2.users = db.users ++ [userRowOf (db.users.length + 1) u] := by
  simp only [load_users_step] at h
  split at h
  · injection h with h
    subst h
    exact Or.inl rfl
  · split at h
    · injection h with h
      subst h
      exact Or.inr rfl
    · split at h
      · injection h with h
        subst h
        exact Or.inr rfl
      · split at h
        · exact Except.noConfusion h
        · split at h
          · injection h with h
            subst h
            exact Or.inr rfl
          · injection h with h
            subst h
            exact Or.inr rfl

/-- After a successful user step, the record's natural key is present. -/
theorem users_step_post (db : DB) (u : UserRecord) (db2 : DB)
    (h : load_users_step db u = Except.ok db2) :
    db2.users.any (fun r => r.user_id_str == some u.user_id) = true := by
  rcases users_step_users db u db2 h with he | he
  · have hcond : db.users.any (fun r => r.user_id_str == some u.user_id) = true := by
      by_contra hc
      have hfalse : db.users.any (fun r => r.user_id_str == some u.user_id) = false := by
        cases hv : db.users.any (fun r => r.user_id_str == some u.user_id)
        · rfl
        · exact absurd hv hc
      simp only [load_users_step, hfalse, Bool.false_eq_true, if_false] at h
      split at h
      · injection h with h
        exact absurd (congrArg DB.users h.symm) (by rw [he]; simp)
      · split at h
        · injection h with h
          exact absurd (congrArg DB.users h.symm) (by rw [he]; simp)
        · split at h
          · exact Except.noConfusion h
          · split at h
            · injection h with h
              exact absurd (congrArg DB.users h.symm) (by rw [he]; simp)
            · injection h with h
              exact absurd (congrArg DB.users h.symm) (by rw [he]; simp)
    rw [he]
    exact hcond
  · rw [he]
    simp [userRowOf]

/-- A successful user step preserves key presence. -/
theorem users_step_mono (db : DB) (u2 : UserRecord) (db2 : DB)
    (h : load_users_step db u2 = Except.ok db2) (p : UserRow → Bool)
    (hp : db.users.any p = true) : db2.users.any p = true := by
  rcases users_step_users db u2 db2 h with he | he
  · rw [he]
    exact hp
  · rw [he]
    simp [List.any_append, hp]

/-- The user resolver leaves every other table alone, makes the key present,
and preserves key presence in the users table. -/
theorem gauid_facts (db : DB) (k : String) :
    (get_add_user_id db k).2.business = db.business ∧
    (get_add_user_id db k).2.reviews = db.reviews ∧
    (get_add_user_id db k).2.photos = db.photos ∧
    (get_add_user_id db k).2.tips = db.tips ∧
    (get_add_user_id db k).2.users.any (fun r => r.user_id_str == some k) = true ∧
    (∀ p : UserRow → Bool, db.users.any p = true → (get_add_user_id db k).2.users.any p = true) := by
  unfold get_add_user_id
  cases hf : db.users.find? (fun r => r.user_id_str == some k) with
  | some r =>
    refine ⟨rfl, rfl, rfl, rfl, ?_, fun p hp => hp⟩
    have hpr := List.find?_some hf
    exact List.any_eq_true.mpr ⟨r, List.mem_of_find?_eq_some hf, hpr⟩
  | none =>
    refine ⟨rfl, rfl, rfl, rfl, ?_, ?_⟩
    · simp
    · intro p hp
      simp [List.any_append, hp]

/-- When the user key is already present the resolver returns the database
unchanged. -/
theorem gauid_found (db : DB) (k : String)
    (h : db.users.any (fun r => r.user_id_str == some k) = true) :
    (get_add_user_id db k).2 = db := by
  cases hf : db.users.find? (fun r => r.user_id_str == some k) with
  | some r =>
    unfold get_add_user_id
    rw [hf]
  | none =>
    obtain ⟨r, hmem, hp⟩ := List.any_eq_true.mp h
    exact absurd hp (List.find?_eq_none.mp hf r hmem)

/-- A successful business resolution found the key and changed nothing. -/
theorem gabid_ok (db : DB) (k : String) (q : Nat × DB)
    (h : get_add_business_id db k = Except.ok q) :
    q.2 = db ∧ db.business.any (fun r => r.business_id_str == some k) = true := by
  unfold get_add_business_id at h
  cases hf : db.business.find? (fun r => r.business_id_str == some k) with
  | some r =>
    rw [hf] at h
    injection h with h
    subst h
    have hpr := List.find?_some hf
    exact ⟨rfl, List.any_eq_true.mpr ⟨r, List.mem_of_find?_eq_some hf, hpr⟩⟩
  | none =>
    rw [hf] at h
    exact Except.noConfusion h

/-- When the business key is present the resolver returns it with the
database unchanged. -/
theorem gabid_found (db : DB) (k : String)
    (h : db.business.any (fun r => r.business_id_str == some k) = true) :
    ∃ bid, get_add_business_id db k = Except.ok (bid, db) := by
  cases hf : db.business.find? (fun r => r.business_id_str == some k) with
  | some r =>
    refine ⟨r.id, ?_⟩
    unfold get_add_business_id
    rw [hf]
  | none =>
    obtain ⟨r, hmem, hp⟩ := List.any_eq_true.mp h
    exact absurd hp (List.find?_eq_none.mp hf r hmem)

/-- A successful review step preserves the business table and key presences,
and makes its own user, business and review keys present. -/
theorem review_step_facts (db : DB) (r : ReviewRecord) (db2 : DB)
    (h : load_review_step db r = Except.ok db2) :
    db2.business = db.business ∧
    (∀ p : UserRow → Bool, db.users.any p = true → db2.users.any p = true) ∧
    db2.users.any (fun x => x.user_id_str == some r.user_id) = true ∧
    db2.business.any (fun x => x.business_id_str == some r.business_id) = true ∧
    db2.reviews.any (fun x => x.review_id_str == some r.review_id) = true ∧
    (∀ p : ReviewRow → Bool, db.reviews.any p = true → db2.reviews.any p = true) := by
  obtain ⟨hgb, hgr, hgp, hgt, hgkey, hgmono⟩ := gauid_facts db r.user_id
  simp only [load_review_step] at h
  split at h
  · exact Except.noConfusion h
  next q hq =>
    obtain ⟨hq2, hqany⟩ := gabid_ok _ _ _ hq
    split at h
    next hdup =>
      injection h with h
      subst h
      rw [hq2] at hdup ⊢
      refine ⟨hgb, hgmono, hgkey, hqany, hdup, ?_⟩
      intro p hp
      rw [hgr]
      exact hp
    next hdup =>
      injection h with h
      subst h
      rw [hq2] at hdup ⊢
      refine ⟨hgb, hgmono, hgkey, hqany, ?_, ?_⟩
      · simp [reviewRowOf, List.any_append]
      · intro p hp
        simp only [List.any_append]
        rw [hgr]
        simp [hp]

/-- A review record all of whose keys are already present is a complete
no-op. -/
theorem review_step_skip (db : DB) (r : ReviewRecord)
    (hu : db.users.any (fun x => x.user_id_str == some r.user_id) = true)
    (hb : db.business.any (fun x => x.business_id_str == some r.business_id) = true)
    (hr : db.reviews.any (fun x => x.review_id_str == some r.review_id) = true) :
    load_review_step db r = Except.ok db := by
  have hu2 := gauid_found db r.user_id hu
  obtain ⟨bid, hbid⟩ := gabid_found db r.business_id hb
  simp only [load_review_step, hu2, hbid, hr, if_true]

/-- A successful photo step preserves the business table and photo-key
presence, and makes its own business and photo keys present. -/
theorem photos_step_facts (db : DB) (p : PhotoRecord) (db2 : DB)
    (h : load_photos_step db p = Except.ok db2) :
    db2.business = db.business ∧
    db2.business.any (fun x => x.business_id_str == some p.business_id) = true ∧
    db2.photos.any (fun x => x.photo_id_str == some p.photo_id) = true ∧
    (∀ q : PhotoRow → Bool, db.photos.any q = true → db2.photos.any q = true) := by
  simp only [load_photos_step] at h
  split at h
  · exact Except.noConfusion h
  next q hq =>
    obtain ⟨hq2, hqany⟩ := gabid_ok _ _ _ hq
    split at h
    next hdup =>
      injection h with h
      subst h
      rw [hq2] at hdup ⊢
      exact ⟨rfl, hqany, hdup, fun _ hp => hp⟩
    next hdup =>
      injection h with h
      subst h
      rw [hq2] at hdup ⊢
      refine ⟨rfl, hqany, ?_, ?_⟩
      · simp [photoRowOf, List.any_append]
      · intro q2 hp
        simp [List.any_append, hp]

/-- A photo record whose business and photo keys are already present is a
complete no-op. -/
theorem photos_step_skip (db : DB) (p : PhotoRecord)
    (hb : db.business.any (fun x => x.business_id_str == some p.business_id) = true)
    (hp : db.photos.any (fun x => x.photo_id_str == some p.photo_id) = true) :
    load_photos_step db p = Except.ok db := by
  obtain ⟨bid, hbid⟩ := gabid_found db p.business_id hb
  simp only [load_photos_step, hbid, hp, if_true]

/- Idempotence of the days seeding. -/

/-- Inserting one day row preserves the conflict test of any pair. -/
theorem dayBlocked_mono (ds : List (Nat × String)) (p q : Nat × String)
    (h : dayBlocked ds p = true) : dayBlocked (seedStep ds q) p = true := by
  unfold seedStep
  split
  · exact h
  · simp only [dayBlocked, List.any_append] at h ⊢
    rcases (Bool.or_eq_true _ _).mp h with h1 | h1
    · simp [h1]
    · simp [h1]

/-- After inserting one day row, that pair conflicts. -/
theorem dayBlocked_self (ds : List (Nat × String)) (p : Nat × String) :
    dayBlocked (seedStep ds p) p = true := by
  unfold seedStep
  split
  next hb => exact hb
  next hb => simp [dayBlocked, List.any_append]

/-- The whole seeding fold preserves the conflict test of any pair. -/
theorem foldl_seed_pres (l : List (Nat × String)) : ∀ (ds : List (Nat × String))
    (p : Nat × String), dayBlocked ds p = true →
    dayBlocked (l.foldl seedStep ds) p = true := by
  induction l with
  | nil => intro ds p h; exact h
  | cons q t ih =>
    intro ds p h
    simp only [List.foldl_cons]
    exact ih _ _ (dayBlocked_mono ds p q h)

/-- Every seeded pair conflicts after the seeding fold. -/
theorem foldl_seed_blocked (l : List (Nat × String)) : ∀ (ds : List (Nat × String)),
    ∀ p ∈ l, dayBlocked (l.foldl seedStep ds) p = true := by
  induction l with
  | nil => intro ds p hp; simp at hp
  | cons q t ih =>
    intro ds p hp
    rcases List.mem_cons.mp hp with rfl | hp2
    · simp only [List.foldl_cons]
      exact foldl_seed_pres t _ p (dayBlocked_self ds p)
    · simp only [List.foldl_cons]
      exact ih _ p hp2

/-- The seeding fold does nothing when every pair already conflicts. -/
theorem foldl_seed_noop (l : List (Nat × String)) : ∀ (ds : List (Nat × String)),
    (∀ p ∈ l, dayBlocked ds p = true) → l.foldl seedStep ds = ds := by
  induction l with
  | nil => intro ds _; rfl
  | cons q t ih =>
    intro ds hall
    have hq : seedStep ds q = ds := by
      unfold seedStep
      rw [if_pos (hall q (List.mem_cons_self q t))]
    simp only [List.foldl_cons, hq]
    exact ih ds (fun p hp => hall p (List.mem_cons_of_mem q hp))

/-- Seeding the days table twice equals seeding it once. -/
theorem seedDays_idem (ds : List (Nat × String)) : seedDays (seedDays ds) = seedDays ds := by
  unfold seedDays
  exact foldl_seed_noop sevenDays _ (fun p hp => foldl_seed_blocked sevenDays ds p hp)

/-- C2, amended.  For the four entity kinds owning a natural key with a
uniqueness constraint - business, user, review, photo - re-loading an
already loaded file is a no-op: every record of the second pass finds its
natural key present and is skipped, so the second pass returns the same
state (hence the same row count in every table).  The tip kind, excluded
here, is refuted by the counterexample above. -/
theorem reload_noop_for_keyed_tables
    (bf : List BusinessRecord) (uf : List UserRecord)
    (rf : List ReviewRecord) (pf : List PhotoRecord)
    (s1 s1' s2 s2' s3 s3' s4 s4' : DB)
    (h1 : load_business_json bf s1 = Except.ok s1')
    (h2 : load_users_json uf s2 = Except.ok s2')
    (h3 : load_review_json rf s3 = Except.ok s3')
    (h4 : load_photos_json pf s4 = Except.ok s4') :
    load_business_json bf s1' = Except.ok s1' ∧
    load_users_json uf s2' = Except.ok s2' ∧
    load_review_json rf s3' = Except.ok s3' ∧
    load_photos_json pf s4' = Except.ok s4' := by
  refine ⟨?_, ?_, ?_, ?_⟩
  · unfold load_business_json at h1 ⊢
    have hdays : s1'.days = (init_days_table s1).days :=
      loadAll_inv load_business_step (fun d => d.days = (init_days_table s1).days)
        (fun db r db2 hq hs => by
          rw [← hq]
          exact (business_step_facts db r db2 hs).1)
        bf (init_days_table s1) s1' h1 rfl
    have hinit : init_days_table s1' = s1' := by
      have hseed : seedDays s1'.days = s1'.days := by
        rw [hdays]
        exact seedDays_idem s1.days
      unfold init_days_table
      rw [hseed]
    rw [hinit]
    have hall : ∀ r ∈ bf, s1'.business.any
        (fun x => x.business_id_str == some (pyStrip r.business_id)) = true :=
      loadAll_post load_business_step
        (fun d r => d.business.any
          (fun x => x.business_id_str == some (pyStrip r.business_id)) = true)
        (fun db r db2 hs => (business_step_facts db r db2 hs).2.1)
        (fun db r r2 db2 hP hs => (business_step_facts db r2 db2 hs).2.2 _ hP)
        bf (init_days_table s1) s1' h1
    exact loadAll_skip load_business_step
      (fun d r => d.business.any
        (fun x => x.business_id_str == some (pyStrip r.business_id)) = true)
      (fun db r hP => by simp [load_business_step, hP]) bf s1' hall
  · unfold load_users_json at h2 ⊢
    have hall : ∀ u ∈ uf, s2'.users.any
        (fun x => x.user_id_str == some u.user_id) = true :=
      loadAll_post load_users_step
        (fun d u => d.users.any (fun x => x.user_id_str == some u.user_id) = true)
        (fun db u db2 hs => users_step_post db u db2 hs)
        (fun db u u2 db2 hP hs => users_step_mono db u2 db2 hs _ hP)
        uf s2 s2' h2
    exact loadAll_skip load_users_step
      (fun d u => d.users.any (fun x => x.user_id_str == some u.user_id) = true)
      (fun db u hP => by simp [load_users_step, hP]) uf s2' hall
  · unfold load_review_json at h3 ⊢
    have hall : ∀ r ∈ rf,
        s3'.users.any (fun x => x.user_id_str == some r.user_id) = true ∧
        s3'.business.any (fun x => x.business_id_str == some r.business_id) = true ∧
        s3'.reviews.any (fun x => x.review_id_str == some r.review_id) = true :=
      loadAll_post load_review_step
        (fun d r => d.users.any (fun x => x.user_id_str == some r.user_id) = true ∧
          d.business.any (fun x => x.business_id_str == some r.business_id) = true ∧
          d.reviews.any (fun x => x.review_id_str == some r.review_id) = true)
        (fun db r db2 hs => by
          obtain ⟨_, _, huk, hbk, hrk, _⟩ := review_step_facts db r db2 hs
          exact ⟨huk, hbk, hrk⟩)
        (fun db r r2 db2 hP hs => by
          obtain ⟨hb, hum, _, _, _, hrm⟩ := review_step_facts db r2 db2 hs
          refine ⟨hum _ hP.1, ?_, hrm _ hP.2.2⟩
          rw [hb]
          exact hP.2.1)
        rf s3 s3' h3
    exact loadAll_skip load_review_step
      (fun d r => d.users.any (fun x => x.user_id_str == some r.user_id) = true ∧
        d.business.any (fun x => x.business_id_str == some r.business_id) = true ∧
        d.reviews.any (fun x => x.review_id_str == some r.review_id) = true)
      (fun db r hP => review_step_skip db r hP.1 hP.2.1 hP.2.2) rf s3' hall
  · unfold load_photos_json at h4 ⊢
    have hall : ∀ p ∈ pf,
        s4'.business.any (fun x => x.business_id_str == some p.business_id) = true ∧
        s4'.photos.any (fun x => x.photo_id_str == some p.photo_id) = true :=
      loadAll_post load_photos_step
        (fun d p => d.business.any (fun x => x.business_id_str == some p.business_id) = true ∧
          d.photos.any (fun x => x.photo_id_str == some p.photo_id) = true)
        (fun db p db2 hs => by
          obtain ⟨_, hbk, hpk, _⟩ := photos_step_facts db p db2 hs
          exact ⟨hbk, hpk⟩)
        (fun db p p2 db2 hP hs => by
          obtain ⟨hb, _, _, hpm⟩ := photos_step_facts db p2 db2 hs
          refine ⟨?_, hpm _ hP.2⟩
          rw [hb]
          exact hP.1)
        pf s4 s4' h4
    exact loadAll_skip load_photos_step
      (fun d p => d.business.any (fun x => x.business_id_str == some p.business_id) = true ∧
        d.photos.any (fun x => x.photo_id_str == some p.photo_id) = true)
      (fun db p hP => photos_step_skip db p hP.1 hP.2) pf s4' hall

/-- C2 amended, witness: one-record business, user, review and photo files,
each loaded a second time over the state its first load produced, change
nothing. -/
theorem reload_noop_for_keyed_tables_witness :
    load_business_json [bwRec] bwDb1 = Except.ok bwDb1 ∧
    load_users_json [uwRec] uwDb1 = Except.ok uwDb1 ∧
    load_review_json [rwRec] rwDb1 = Except.ok rwDb1 ∧
    load_photos_json [pwRec] pwDb1 = Except.ok pwDb1 :=
  reload_noop_for_keyed_tables [bwRec] [uwRec] [rwRec] [pwRec]
    emptyDB bwDb1 emptyDB uwDb1 tipDb0 rwDb1 tipDb0 pwDb1 rfl rfl rfl rfl
